import Mathlib

/-!
Verification of the concurrent multi-account orchestration engine of
aws-finops-dashboard-go (dashboard use case: work-unit resolution, the
bounded worker pool, the cost-dashboard and resource-audit pipelines,
result aggregation, and the audit formatting helpers).

Shallow embedding conventions:
* `float64` is modelled as `ℚ`; every numeric literal appearing in the
  claims (`0.01`, `100`, `150`, `50`) is exact in both `float64` and `ℚ`,
  and no claim depends on rounding behaviour.
* A Go call `v, err := f(...)` is modelled as `Except String v`; the
  adapter implementations of the AWS repository return the zero value of
  the result type together with a non-nil error, so the Go pattern
  `v, _ := f(...)` (discard the error) is modelled by `orZero`, which
  substitutes the zero value on failure.
* Go maps are modelled as association lists (`List (key × value)`); the
  distinct-keys property of a real map is an explicit `Nodup` hypothesis
  where a theorem needs it.  Map reads use the Go semantics: a missing
  key yields the zero value.
* Goroutine nondeterminism (worker-pool completion order, the order in
  which concurrent sub-results are merged under the mutex) is modelled by
  an explicit `arrival` list parameter, quantified over all permutations
  of the submitted work in the theorems.
* `pterm` colour wrappers (`FgCyan.Sprintf` etc.) only add ANSI escape
  codes around the text; they are modelled as the identity on the text.
-/

namespace AwsFinops

/-- float64 cost figures, modelled exactly as rationals. -/
abbrev Money := ℚ

/-- Byte/char-wise lexicographic comparison on char lists, the order used
by Go's `sort.Strings` and by string `<` in `sort.Slice` comparators. -/
def charListLe : List Char → List Char → Bool
  | [], _ => true
  | _ :: _, [] => false
  | a :: as, b :: bs => if a < b then true else if b < a then false else charListLe as bs

/-- Lexicographic `≤` on strings (Go string comparison). -/
def strLe (a b : String) : Bool := charListLe a.data b.data

theorem charListLe_total (a b : List Char) : charListLe a b = true ∨ charListLe b a = true := by
  induction a generalizing b with
  | nil => left; rfl
  | cons x xs ih =>
    cases b with
    | nil => right; rfl
    | cons y ys =>
      by_cases hxy : x < y
      · left; simp [charListLe, hxy]
      · by_cases hyx : y < x
        · right; simp [charListLe, hyx, asymm hyx]
        · rcases ih ys with h | h
          · left; simp [charListLe, hxy, hyx, h]
          · right; simp [charListLe, hxy, hyx, h]

theorem charListLe_trans {a b c : List Char} (hab : charListLe a b = true)
    (hbc : charListLe b c = true) : charListLe a c = true := by
  induction a generalizing b c with
  | nil => rfl
  | cons x xs ih =>
    cases b with
    | nil => simp [charListLe] at hab
    | cons y ys =>
      cases c with
      | nil => simp [charListLe] at hbc
      | cons z zs =>
        by_cases hxy : x < y
        · by_cases hyz : y < z
          · simp [charListLe, lt_trans hxy hyz]
          · by_cases hzy : z < y
            · simp [charListLe, hyz, hzy] at hbc
            · have hyz' : y = z := le_antisymm (not_lt.mp hzy) (not_lt.mp hyz)
              subst hyz'
              simp [charListLe, hxy]
        · by_cases hyx : y < x
          · simp [charListLe, hxy, hyx] at hab
          · have hxy' : x = y := le_antisymm (not_lt.mp hyx) (not_lt.mp hxy)
            subst hxy'
            simp only [charListLe, if_neg (lt_irrefl x)] at hab
            by_cases hxz : x < z
            · simp [charListLe, hxz]
            · by_cases hzx : z < x
              · simp [charListLe, hxz, hzx] at hbc
              · simp only [charListLe, if_neg hxz, if_neg hzx] at hbc ⊢
                exact ih hab hbc

theorem strLe_total (a b : String) : strLe a b = true ∨ strLe b a = true :=
  charListLe_total a.data b.data

theorem strLe_trans {a b c : String} (hab : strLe a b = true) (hbc : strLe b c = true) :
    strLe a c = true :=
  charListLe_trans hab hbc

/-- The string order as a decidable relation, for `List.insertionSort`. -/
def strLeR (a b : String) : Prop := strLe a b = true

instance : DecidableRel strLeR := fun a b => inferInstanceAs (Decidable (_ = true))

instance : IsTotal String strLeR := ⟨strLe_total⟩

instance : IsTrans String strLeR := ⟨fun _ _ _ => strLe_trans⟩

/-- `sort.Strings`: sort a string slice ascending.  Go uses an unstable
pattern-defeating quicksort; any correct comparison sort has the same
input/output contract, so the model uses insertion sort. -/
def sortStrings (l : List String) : List String := List.insertionSort strLeR l

theorem sortStrings_sorted (l : List String) : (sortStrings l).Sorted strLeR :=
  List.sorted_insertionSort strLeR l

theorem sortStrings_perm (l : List String) : (sortStrings l).Perm l :=
  List.perm_insertionSort strLeR l

/-- Go pattern `v, _ := call(...)`: the adapter returns the zero value of
the result type alongside a non-nil error, so discarding the error leaves
the zero value. -/
def orZero {α : Type} (x : Except String α) (zero : α) : α :=
  match x with
  | .ok v => v
  | .error _ => zero

/-! ## Domain entities (internal/domain/entity) -/

/-- entity.ServiceCost: a cost amount for one service, with an optional
nested breakdown (`SubCosts []ServiceCost`). -/
inductive ServiceCost : Type where
  | mk (serviceName : String) (cost : Money) (subCosts : List ServiceCost)

def ServiceCost.serviceName : ServiceCost → String
  | .mk n _ _ => n

def ServiceCost.cost : ServiceCost → Money
  | .mk _ c _ => c

def ServiceCost.subCosts : ServiceCost → List ServiceCost
  | .mk _ _ s => s

/-- entity.BudgetInfo. -/
structure BudgetInfo : Type where
  name : String
  limit : Money
  actual : Money
  forecast : Money
deriving DecidableEq

/-- entity.EC2Summary: `map[string]int` from instance state to count,
modelled as an association list. -/
abbrev EC2Summary := List (String × Int)

/-- Go map read `m[k]`: the value of the first entry with key `k`, or the
zero value 0 when the key is absent. -/
def ec2Get (m : EC2Summary) (k : String) : Int :=
  match m with
  | [] => 0
  | e :: rest => if e.1 = k then e.2 else ec2Get rest k

/-- Go map write `m[k] = v` (first occurrence replaced, or appended). -/
def ec2Set (m : EC2Summary) (k : String) (v : Int) : EC2Summary :=
  match m with
  | [] => [(k, v)]
  | e :: rest => if e.1 = k then (k, v) :: rest else e :: ec2Set rest k v

/-- `combined[state] += count` (Go map read-modify-write). -/
def ec2Add (m : EC2Summary) (k : String) (v : Int) : EC2Summary :=
  ec2Set m k (ec2Get m k + v)

/-- The merge loop `for state, count := range summary { combined[state] += count }`. -/
def ec2Merge (acc : EC2Summary) (s : EC2Summary) : EC2Summary :=
  s.foldl (fun m e => ec2Add m e.1 e.2) acc

/-- entity.CostData (the fields the orchestration core reads; the
`time.Time` period-boundary fields and `MonthlyCosts`, consumed only by
the period-label and trend helpers, are not needed by any claim). -/
structure CostData : Type where
  accountID : String
  currentMonthCost : Money
  lastMonthCost : Money
  currentMonthCostByService : List ServiceCost
  budgets : List BudgetInfo
  currentPeriodName : String
  previousPeriodName : String

/-- entity.ProfileGroup: one work unit (a single profile, or the profiles
sharing one account when `--combine` is set). -/
structure ProfileGroup : Type where
  identifier : String
  accountID : String
  profiles : List String
  isCombined : Bool
deriving DecidableEq

/-- entity.ProfileData: the JobResult of the cost-dashboard pipeline.
`Err error` is modelled as `Option String` (the wrapped message). -/
structure ProfileData : Type where
  profile : String
  accountID : String
  lastMonth : Money
  currentMonth : Money
  serviceCosts : List ServiceCost
  serviceCostsFormatted : List String
  budgetInfo : List String
  ec2Summary : EC2Summary
  ec2SummaryFormatted : List String
  success : Bool
  err : Option String
  currentPeriodName : String
  previousPeriodName : String
  percentChangeInCost : Option Money

/-- The Go zero value of `entity.ProfileData`, as produced by a composite
literal that omits the field. -/
def ProfileData.zero : ProfileData :=
  { profile := "", accountID := "", lastMonth := 0, currentMonth := 0,
    serviceCosts := [], serviceCostsFormatted := [], budgetInfo := [],
    ec2Summary := [], ec2SummaryFormatted := [], success := false,
    err := none, currentPeriodName := "", previousPeriodName := "",
    percentChangeInCost := none }

/-- entity.NatGatewayCost. -/
structure NatGatewayCost : Type where
  resourceID : String
  cost : Money
  region : String
deriving DecidableEq

/-- The `map[string][]string` shape shared by IdleLoadBalancers,
StoppedEC2Instances, UnusedVolumes, UnusedEIPs and UnusedVpcEndpoints
(the constraint `V ~map[string][]string` of `formatAuditMap`). -/
abbrev RegionMap := List (String × List String)

/-- Go map read `m[region]` on a RegionMap. -/
def regionGet (m : RegionMap) (k : String) : List String :=
  match m with
  | [] => []
  | e :: rest => if e.1 = k then e.2 else regionGet rest k

/-- entity.UntaggedResources: `map[string]map[string][]string`
(service → region → resource identifiers). -/
abbrev UntaggedMap := List (String × RegionMap)

def untaggedGet (m : UntaggedMap) (k : String) : RegionMap :=
  match m with
  | [] => []
  | e :: rest => if e.1 = k then e.2 else untaggedGet rest k

/-- entity.AuditData: the JobResult of the resource-audit pipeline, all
fields already formatted for rendering/export. -/
structure AuditData : Type where
  profile : String
  accountID : String
  natGatewayCosts : String
  idleLoadBalancers : String
  stoppedInstances : String
  unusedVolumes : String
  unusedEIPs : String
  untaggedResources : String
  unusedVpcEndpoints : String
  budgetAlerts : String
deriving DecidableEq

/-- types.CLIArgs: the fields the orchestration core consumes. -/
structure CLIArgs : Type where
  profiles : List String
  regions : List String
  all : Bool
  combine : Bool
  timeRange : Option Int
  tag : List String
  breakdownCosts : Bool

/-- types.ErrNoProfilesFound (internal/shared/types/errors.go). -/
def ErrNoProfilesFound : String := "no AWS profiles found. Please configure AWS CLI first"

/-- types.ErrNoValidProfilesFound (internal/shared/types/errors.go). -/
def ErrNoValidProfilesFound : String :=
  "none of the specified profiles were found in AWS configuration"

/-- repository.AWSRepository: the data-source collaborator, one function
per remote operation.  Failure of a call is an `Except.error` carrying the
error message; the orchestration core never sees any other channel. -/
structure AWSRepo : Type where
  getAWSProfiles : List String
  getAccountID : String → Except String String
  getCostData : String → Option Int → List String → Bool → Except String CostData
  getAccessibleRegions : String → Except String (List String)
  getEC2Summary : String → List String → Except String EC2Summary
  getNatGatewayCost : String → Option Int → List String → Except String (List NatGatewayCost)
  getIdleLoadBalancers : String → List String → Except String RegionMap
  getStoppedInstances : String → List String → Except String RegionMap
  getUnusedVolumes : String → List String → Except String RegionMap
  getUnusedEIPs : String → List String → Except String RegionMap
  getUntaggedResources : String → List String → Except String UntaggedMap
  getUnusedVpcEndpoints : String → List String → Except String RegionMap
  getBudgets : String → Except String (List BudgetInfo)

/-! ## Formatting helpers (usecase/dashboard.go)

`pterm` colour wrappers are the identity on the wrapped text. -/

def fgRed (s : String) : String := s

def fgGreen (s : String) : String := s

def fgYellow (s : String) : String := s

def fgCyan (s : String) : String := s

def fgGray (s : String) : String := s

def fgMagenta (s : String) : String := s

/-- `fmt.Sprintf("%.2f", x)`: fixed two-decimal rendering of a cost
figure.  The exact rounding mode of `%.2f` on a binary float is
immaterial to every claim; the model rounds the rational to the nearest
hundredth. -/
def formatMoney (q : Money) : String :=
  let n : Int := round (q * 100)
  let sign := if n < 0 then "-" else ""
  let m := n.natAbs
  sign ++ toString (m / 100) ++ "." ++ (if m % 100 < 10 then "0" else "") ++ toString (m % 100)

/-- formatServiceCosts: one line per service, sub-costs indented. -/
def formatServiceCosts (costs : List ServiceCost) : List String :=
  let formatted := costs.foldl (fun acc sc =>
    match sc with
    | .mk name cost subs =>
      if subs.isEmpty then
        acc ++ [name ++ ": $" ++ formatMoney cost]
      else
        acc ++ [name ++ ": $" ++ formatMoney cost ++ " (details below)"] ++
          subs.map (fun sub =>
            fgGray ("  └─ " ++ sub.serviceName ++ ": $" ++ formatMoney sub.cost))) []
  if formatted.isEmpty then ["No costs found"] else formatted

/-- formatBudgetInfo: limit/actual (and positive forecast) per budget. -/
def formatBudgetInfo (budgets : List BudgetInfo) : List String :=
  let formatted := budgets.map (fun b =>
    let info := b.name ++ " Limit: $" ++ formatMoney b.limit ++ "\n" ++
      b.name ++ " Actual: $" ++ formatMoney b.actual
    if b.forecast > 0 then info ++ "\n" ++ b.name ++ " Forecast: $" ++ formatMoney b.forecast
    else info)
  if formatted.isEmpty then ["No budgets configured"] else formatted

/-- formatEC2Summary: states sorted, zero counts skipped. -/
def formatEC2Summary (summary : EC2Summary) : List String :=
  let states := sortStrings (summary.map Prod.fst)
  let formatted := states.foldl (fun acc state =>
    let count := ec2Get summary state
    if count > 0 then
      let coloredState :=
        if state = "running" then fgGreen state
        else if state = "stopped" then fgYellow state
        else fgCyan state
      acc ++ [coloredState ++ ": " ++ toString count]
    else acc) []
  if formatted.isEmpty then ["No instances found"] else formatted

/-- calculatePercentageChange (source lines 2372-2382). -/
def calculatePercentageChange (current previous : Money) : Option Money :=
  if previous > 0.01 then some (((current - previous) / previous) * 100)
  else if current < 0.01 then some 0
  else none

/-- populateProfileData: fill a ProfileData from fetched cost data and a
compute-state summary, and mark it successful. -/
def populateProfileData (data : ProfileData) (costData : CostData) (ec2Summary : EC2Summary) :
    ProfileData :=
  { data with
    accountID := costData.accountID,
    lastMonth := costData.lastMonthCost,
    currentMonth := costData.currentMonthCost,
    currentPeriodName := costData.currentPeriodName,
    previousPeriodName := costData.previousPeriodName,
    serviceCosts := costData.currentMonthCostByService,
    serviceCostsFormatted := formatServiceCosts costData.currentMonthCostByService,
    budgetInfo := formatBudgetInfo costData.budgets,
    ec2Summary := ec2Summary,
    ec2SummaryFormatted := formatEC2Summary ec2Summary,
    percentChangeInCost := calculatePercentageChange costData.currentMonthCost costData.lastMonthCost,
    success := true }

/-- formatNatGatewayCosts: at most the 5 most expensive gateways. -/
def formatNatGatewayCosts (costs : List NatGatewayCost) : String :=
  if costs.isEmpty then "None"
  else
    let limit := if costs.length < 5 then costs.length else 5
    let s := (costs.take limit).foldl (fun b c =>
      b ++ fgRed ("$" ++ formatMoney c.cost) ++ " - " ++ c.resourceID ++ " (" ++ c.region ++ ")\n") ""
    s.trim

/-- Production cap on printed identifiers per region (source line 2160). -/
def maxItemsPerRegion : Nat := 50

/-- The loop body of `formatAuditMap` for one region: skip the region
when its identifier list is empty, otherwise write the header line, the
sorted identifiers up to the cap, and the `... (+K more)` line when items
were cut off. -/
def auditMapStep (data : RegionMap) (builder : String) (region : String) : String :=
  let items := regionGet data region
  if items.length = 0 then builder
  else
    let sorted := sortStrings items
    let limit := if sorted.length > maxItemsPerRegion then maxItemsPerRegion else sorted.length
    let builder := builder ++ fgCyan (region ++ ":" ++ "\n")
    let builder := (sorted.take limit).foldl
      (fun b item => b ++ ("  - " ++ item ++ "\n")) builder
    if sorted.length > limit then
      builder ++ ("  ... (+" ++ toString (sorted.length - limit) ++ " more)" ++ "\n")
    else builder

/-- formatAuditMap: regions sorted, empty regions skipped, identifiers
sorted and capped at `maxItemsPerRegion` with a `... (+K more)` line.
The `title` parameter is unused in the source as well. -/
def formatAuditMap (data : RegionMap) (title : String) : String :=
  if data.length = 0 then "None"
  else (sortStrings (data.map Prod.fst)).foldl (auditMapStep data) ""

/-- formatAuditMapForUntagged: services sorted, then the per-region layout
of `formatAuditMap` one level deeper; `None` when nothing was emitted. -/
def formatAuditMapForUntagged (data : UntaggedMap) : String :=
  let services := sortStrings (data.map Prod.fst)
  let res := services.foldl (fun (st : String × Bool) service =>
    let regions := untaggedGet data service
    if regions.length = 0 then st
    else
      let builder := st.1 ++ fgYellow (service ++ ":" ++ "\n")
      let regionNames := sortStrings (regions.map Prod.fst)
      let builder := regionNames.foldl (fun b region =>
        let items := regionGet regions region
        if items.length = 0 then b
        else
          let sorted := sortStrings items
          let limit := if sorted.length > maxItemsPerRegion then maxItemsPerRegion else sorted.length
          let b := b ++ fgCyan ("  " ++ region ++ ":" ++ "\n")
          let b := (sorted.take limit).foldl
            (fun bb item => bb ++ ("    - " ++ item ++ "\n")) b
          if sorted.length > limit then
            b ++ ("    ... (+" ++ toString (sorted.length - limit) ++ " more)" ++ "\n")
          else b) builder
      (builder, true)) ("", false)
  if !res.2 then "None" else res.1

/-- formatBudgetAlerts: the budgets whose actual spend exceeds the limit,
or the empty representation. -/
def formatBudgetAlerts (budgets : List BudgetInfo) : String :=
  let alerts := (budgets.filter (fun b => b.actual > b.limit)).map (fun b =>
    fgRed (b.name ++ ": $" ++ formatMoney b.actual ++ " > $" ++ formatMoney b.limit))
  if alerts.isEmpty then "No budgets exceeded"
  else String.intercalate "\n" alerts

/-! ## Cost-dashboard pipeline (usecase/dashboard.go, lines 1582-1727) -/

/-- The `timeRange` normalisation repeated at each pipeline entry:
`if args.TimeRange != nil && *args.TimeRange > 0 { timeRange = args.TimeRange }`. -/
def effTimeRange (timeRange : Option Int) : Option Int :=
  match timeRange with
  | some v => if v > 0 then some v else none
  | none => none

/-- The region-resolution step repeated by every pipeline:
`regions := userRegions; if len(regions) == 0 { regions, _ =
GetAccessibleRegions(profile) }`. -/
def resolveRegions (repo : AWSRepo) (userRegions : List String) (profile : String) :
    List String :=
  if userRegions.length = 0 then orZero (repo.getAccessibleRegions profile) []
  else userRegions

/-- processSingleProfile: the single-profile cost-dashboard pipeline.  The
progress-bar argument is observational only and is not modelled.  The cost
fetch is the critical query: its failure returns immediately with the
failure recorded in `err` and every other field still at its zero value. -/
def processSingleProfile (repo : AWSRepo) (profile : String) (userRegions : List String)
    (timeRange : Option Int) (tags : List String) (breakdown : Bool) : ProfileData :=
  let data := { ProfileData.zero with profile := profile, success := false }
  match repo.getCostData profile timeRange tags breakdown with
  | .error e => { data with err := some ("failed to get cost data: " ++ e) }
  | .ok costData =>
    let regions := resolveRegions repo userRegions profile
    match repo.getEC2Summary profile regions with
    | .error e => { data with err := some ("failed to get EC2 summary: " ++ e) }
    | .ok ec2Summary => populateProfileData data costData ec2Summary

/-- processCombinedProfile: the combined-unit pipeline.  Cost data comes
from `group.Profiles[0]` only (a WorkUnit has non-empty `memberProfiles`,
modelled by `headD`); the per-member EC2 summaries are fetched by one
goroutine per member and merged under a mutex — `memberArrival` is the
order in which those goroutines reach the merge, a permutation of
`group.profiles`.  A member whose fetch fails contributes nothing. -/
def processCombinedProfile (repo : AWSRepo) (group : ProfileGroup) (userRegions : List String)
    (timeRange : Option Int) (tags : List String) (breakdown : Bool)
    (memberArrival : List String) : ProfileData :=
  let data := { ProfileData.zero with
    profile := group.identifier, accountID := group.accountID, success := false }
  let primaryProfile := group.profiles.headD ""
  match repo.getCostData primaryProfile timeRange tags breakdown with
  | .error e => { data with err := some ("failed to get cost data for account: " ++ e) }
  | .ok costData =>
    let regions := resolveRegions repo userRegions primaryProfile
    let combinedEC2Summary := memberArrival.foldl (fun acc p =>
      match repo.getEC2Summary p regions with
      | .error _ => acc
      | .ok summary => ec2Merge acc summary) []
    populateProfileData data costData combinedEC2Summary

/-- processProfileJob: dispatch one work unit to the single or combined
pipeline.  The canonical member order stands in for the merge arrival
order here; `processCombinedProfile` theorems quantify over it. -/
def processProfileJob (repo : AWSRepo) (args : CLIArgs) (group : ProfileGroup) : ProfileData :=
  let timeRange := effTimeRange args.timeRange
  if group.isCombined then
    processCombinedProfile repo group args.regions timeRange args.tag args.breakdownCosts
      group.profiles
  else
    processSingleProfile repo (group.profiles.headD "") args.regions timeRange args.tag
      args.breakdownCosts

/-- The worker-count computation of generateDashboardData, verbatim from
the source (lines 1591-1594): `numWorkers := 10; if numJobs < numJobs
{ numWorkers = numJobs }`. -/
def numWorkersGo (numJobs : Nat) : Nat :=
  let numWorkers := 10
  if numJobs < numJobs then numJobs else numWorkers

/-- generateDashboardData: the bounded worker pool.  `numJobs` jobs are
queued, each worker sends exactly one `ProfileData` per job to the results
channel, and the main goroutine collects exactly `numJobs` results in
completion order.  `arrival` is that completion order — a permutation of
the submitted groups in the theorems. -/
def generateDashboardData (repo : AWSRepo) (args : CLIArgs) (arrival : List ProfileGroup) :
    List ProfileData :=
  arrival.map (processProfileJob repo args)

/-- The `sort.Slice` comparator of runCostDashboard:
`results[i].Profile < results[j].Profile`, ascending. -/
def profileLe (a b : ProfileData) : Prop := strLeR a.profile b.profile

instance : DecidableRel profileLe := fun a b => inferInstanceAs (Decidable (_ = true))

instance : IsTotal ProfileData profileLe := ⟨fun a b => strLe_total a.profile b.profile⟩

instance : IsTrans ProfileData profileLe := ⟨fun _ _ _ => strLe_trans⟩

/-- The result-aggregation step of runCostDashboard (lines 1222-1224):
sort the collected results ascending by profile identifier. -/
def sortDashboardResults (results : List ProfileData) : List ProfileData :=
  List.insertionSort profileLe results

/-- runCostDashboard, reduced to its data path: collect one result per
unit from the worker pool, then sort before rendering and export. -/
def runCostDashboardResults (repo : AWSRepo) (args : CLIArgs) (arrival : List ProfileGroup) :
    List ProfileData :=
  sortDashboardResults (generateDashboardData repo args arrival)

/-! ## Resource-audit pipeline (usecase/dashboard.go, lines 1962-2137) -/

/-- The body of the per-unit audit goroutine: 8 independent checks, each
`v, _ := ...` so a failing check degrades to the zero value of its result
type; the 8 fields are then formatted independently. -/
def auditUnit (repo : AWSRepo) (args : CLIArgs) (group : ProfileGroup) : AuditData :=
  let profile := group.profiles.headD ""
  let timeRange := effTimeRange args.timeRange
  let regions := resolveRegions repo args.regions profile
  let natCosts := orZero (repo.getNatGatewayCost profile timeRange args.tag) []
  let idleLBs := orZero (repo.getIdleLoadBalancers profile regions) []
  let stopped := orZero (repo.getStoppedInstances profile regions) []
  let unusedVols := orZero (repo.getUnusedVolumes profile regions) []
  let unusedEIPs := orZero (repo.getUnusedEIPs profile regions) []
  let untagged := orZero (repo.getUntaggedResources profile regions) []
  let unusedEndpoints := orZero (repo.getUnusedVpcEndpoints profile regions) []
  let budgets := orZero (repo.getBudgets profile) []
  let accountID := orZero (repo.getAccountID profile) ""
  { profile := profile,
    accountID := accountID,
    natGatewayCosts := formatNatGatewayCosts natCosts,
    idleLoadBalancers := formatAuditMap idleLBs "Idle Load Balancers",
    stoppedInstances := formatAuditMap stopped "Stopped Instances",
    unusedVolumes := formatAuditMap unusedVols "Unused Volumes",
    unusedEIPs := formatAuditMap unusedEIPs "Unused Elastic IPs",
    untaggedResources := formatAuditMapForUntagged untagged,
    unusedVpcEndpoints := formatAuditMap unusedEndpoints "Unused VPC Endpoints",
    budgetAlerts := formatBudgetAlerts budgets }

/-- The `sort.Slice` comparator of runAuditReport (line 2089). -/
def auditLe (a b : AuditData) : Prop := strLeR a.profile b.profile

instance : DecidableRel auditLe := fun a b => inferInstanceAs (Decidable (_ = true))

instance : IsTotal AuditData auditLe := ⟨fun a b => strLe_total a.profile b.profile⟩

instance : IsTrans AuditData auditLe := ⟨fun _ _ _ => strLe_trans⟩

/-- runAuditReport, reduced to its data path: one audit goroutine per
unit appends its row under the mutex in completion order (`arrival`),
then the rows are sorted by profile before the table is written. -/
def runAuditReportData (repo : AWSRepo) (args : CLIArgs) (arrival : List ProfileGroup) :
    List AuditData :=
  List.insertionSort auditLe (arrival.map (auditUnit repo args))

/-! ## Work-unit resolver (usecase/dashboard.go, lines 1777-1872) -/

/-- The profile-selection policy of initializeProfiles (lines 1781-1810):
explicit requested profiles validated against the available names, else
the use-all flag, else the default profile, else all available with a
warning. -/
def selectProfiles (availableProfiles : List String) (args : CLIArgs) : List String :=
  if args.all then availableProfiles
  else if args.profiles.length > 0 then
    args.profiles.foldl (fun acc p =>
      if availableProfiles.contains p then acc ++ [p] else acc) []
  else
    let d := if availableProfiles.contains "default" then ["default"] else []
    if d.length = 0 ∧ availableProfiles.length > 0 then availableProfiles else d

/-- The `accountToProfiles[accID] = append(accountToProfiles[accID], prof)`
step under the mutex, on the association-list model of the Go map. -/
def addToAccount (acc : List (String × List String)) (k p : String) :
    List (String × List String) :=
  match acc with
  | [] => [(k, [p])]
  | e :: rest => if e.1 = k then (e.1, e.2 ++ [p]) :: rest else e :: addToAccount rest k p

/-- The parallel identity-resolution loop of the combine branch: each
profile whose `GetAccountID` fails is dropped with a warning; the rest are
grouped by account ID in goroutine-completion order (`arrival`). -/
def groupByAccount (getAccountID : String → Except String String) (arrival : List String) :
    List (String × List String) :=
  arrival.foldl (fun acc p =>
    match getAccountID p with
    | .error _ => acc
    | .ok accID => addToAccount acc accID p) []

/-- The group-construction loop (lines 1861-1870): each account becomes
one combined group with its member profiles sorted and the identifier
their comma-joined listing. -/
def combineGroups (arrival : List String) (getAccountID : String → Except String String) :
    List ProfileGroup :=
  (groupByAccount getAccountID arrival).map (fun e =>
    let sorted := sortStrings e.2
    { identifier := String.intercalate ", " sorted, accountID := e.1,
      profiles := sorted, isCombined := true })

/-- initializeProfiles: select profiles, fail with
`ErrNoValidProfilesFound` when none survive selection, verify credentials
against the first selected profile, then emit one group per profile (or
the combined groups).  `arrival` is the completion order of the parallel
identity lookups, a permutation of the selected profiles. -/
def initializeProfiles (repo : AWSRepo) (args : CLIArgs) (arrival : List String) :
    Except String (List ProfileGroup) :=
  let availableProfiles := repo.getAWSProfiles
  let profilesToScan := selectProfiles availableProfiles args
  if profilesToScan.length = 0 then .error ErrNoValidProfilesFound
  else
    match repo.getAccountID (profilesToScan.headD "") with
    | .error e =>
        .error ("credential validation failed for profile '" ++ profilesToScan.headD "" ++
          "'. Reason: " ++ e ++ ". Please check your AWS credentials or session token")
    | .ok _ =>
      if !args.combine then
        .ok (profilesToScan.map (fun p =>
          { identifier := p, accountID := "", profiles := [p], isCombined := false }))
      else
        .ok (combineGroups arrival repo.getAccountID)

/-! ## Supporting lemmas -/

theorem ec2Get_set (m : EC2Summary) (k : String) (v : Int) (q : String) :
    ec2Get (ec2Set m k v) q = if k = q then v else ec2Get m q := by
  induction m with
  | nil => simp [ec2Set, ec2Get]
  | cons e rest ih =>
    by_cases hek : e.1 = k
    · by_cases hkq : k = q
      · subst hkq; simp [ec2Set, ec2Get, hek]
      · have hne : ¬e.1 = q := by rw [hek]; exact hkq
        simp [ec2Set, ec2Get, hek, hkq, hne]
    · by_cases heq : e.1 = q
      · have hne : ¬k = q := by intro h; exact hek (h ▸ heq)
        simp only [ec2Set, if_neg hek, ec2Get, if_pos heq, if_neg hne]
      · simp [ec2Set, ec2Get, hek, heq, ih]

theorem ec2Get_add (m : EC2Summary) (k : String) (v : Int) (q : String) :
    ec2Get (ec2Add m k v) q = ec2Get m q + if k = q then v else 0 := by
  unfold ec2Add
  rw [ec2Get_set]
  by_cases hkq : k = q
  · subst hkq; simp
  · simp [hkq]

/-- The total contribution of the entries of one summary to one state. -/
def sumVals (s : EC2Summary) (q : String) : Int :=
  (s.map (fun e => if e.1 = q then e.2 else 0)).sum

theorem ec2Get_merge (acc s : EC2Summary) (q : String) :
    ec2Get (ec2Merge acc s) q = ec2Get acc q + sumVals s q := by
  unfold ec2Merge
  induction s generalizing acc with
  | nil => simp [sumVals]
  | cons e rest ih =>
    simp only [List.foldl_cons]
    rw [ih, ec2Get_add]
    simp [sumVals]
    ring

theorem sumVals_of_not_mem {s : EC2Summary} {q : String} (h : q ∉ s.map Prod.fst) :
    sumVals s q = 0 := by
  induction s with
  | nil => rfl
  | cons e rest ih =>
    simp only [List.map_cons, List.mem_cons, not_or] at h
    have he : ¬e.1 = q := fun hh => h.1 hh.symm
    simp only [sumVals, List.map_cons, List.sum_cons, if_neg he]
    simpa [sumVals] using ih h.2

theorem sumVals_eq_get {s : EC2Summary} (h : (s.map Prod.fst).Nodup) (q : String) :
    sumVals s q = ec2Get s q := by
  induction s with
  | nil => rfl
  | cons e rest ih =>
    simp only [List.map_cons, List.nodup_cons] at h
    by_cases heq : e.1 = q
    · have hnm : q ∉ rest.map Prod.fst := heq ▸ h.1
      have hz := sumVals_of_not_mem (s := rest) hnm
      simp only [sumVals, List.map_cons, List.sum_cons, if_pos heq, ec2Get] at hz ⊢
      simp [heq, hz]
    · simp only [sumVals, List.map_cons, List.sum_cons, if_neg heq, ec2Get, zero_add]
      exact ih h.2

theorem foldl_merge_get (repo : AWSRepo) (regions : List String) (arrival : List String)
    (acc : EC2Summary) (q : String) :
    ec2Get (arrival.foldl (fun acc p =>
      match repo.getEC2Summary p regions with
      | .error _ => acc
      | .ok summary => ec2Merge acc summary) acc) q =
    ec2Get acc q + (arrival.map (fun p =>
      sumVals (orZero (repo.getEC2Summary p regions) []) q)).sum := by
  induction arrival generalizing acc with
  | nil => simp
  | cons p rest ih =>
    simp only [List.foldl_cons, List.map_cons, List.sum_cons]
    rw [ih]
    cases h : repo.getEC2Summary p regions with
    | error e => simp [orZero, h, sumVals]
    | ok s => rw [ec2Get_merge]; simp [orZero, h]; ring

/-- Concatenation of a list of already-line-terminated strings, the
declarative counterpart of the sequence of `builder.WriteString` calls. -/
def strConcat : List String → String
  | [] => ""
  | x :: rest => x ++ strConcat rest

theorem foldl_skip_append {α : Type} (q : α → Bool) (f : α → String) (l : List α) (s : String) :
    l.foldl (fun b x => if q x then b else b ++ f x) s
      = s ++ strConcat ((l.filter (fun x => !q x)).map f) := by
  induction l generalizing s with
  | nil => simp [strConcat]
  | cons x xs ih =>
    by_cases h : q x
    · simp only [List.foldl_cons, if_pos h, List.filter_cons, h]
      simpa using ih s
    · simp only [List.foldl_cons, if_neg h, List.filter_cons, h]
      rw [ih]
      simp [strConcat, String.append_assoc]

theorem foldl_append_concat {α : Type} (f : α → String) (l : List α) (s : String) :
    l.foldl (fun b x => b ++ f x) s = s ++ strConcat (l.map f) := by
  induction l generalizing s with
  | nil => simp [strConcat]
  | cons x xs ih =>
    simp only [List.foldl_cons]
    rw [ih]
    simp [strConcat, String.append_assoc]

theorem addToAccount_keys (acc : List (String × List String)) (k p : String) :
    (addToAccount acc k p).map Prod.fst =
      if k ∈ acc.map Prod.fst then acc.map Prod.fst else acc.map Prod.fst ++ [k] := by
  induction acc with
  | nil => simp [addToAccount]
  | cons e rest ih =>
    by_cases h : e.1 = k
    · simp [addToAccount, h]
    · have hne : ¬k = e.1 := fun hh => h hh.symm
      by_cases hk : k ∈ rest.map Prod.fst
      · simp [addToAccount, h, ih, hne, hk]
      · simp [addToAccount, h, ih, hne, hk]

theorem addToAccount_keys_nodup {acc : List (String × List String)}
    (h : (acc.map Prod.fst).Nodup) (k p : String) :
    ((addToAccount acc k p).map Prod.fst).Nodup := by
  rw [addToAccount_keys]
  by_cases hk : k ∈ acc.map Prod.fst
  · simpa [hk] using h
  · simp only [hk, if_false]
    exact List.Nodup.append h (List.nodup_singleton k) (by simpa using hk)

/-- Every profile stored under an account key resolved to that key. -/
def accInv (getAccountID : String → Except String String)
    (acc : List (String × List String)) : Prop :=
  ∀ e ∈ acc, ∀ q ∈ e.2, getAccountID q = .ok e.1

theorem accInv_add {getAccountID : String → Except String String}
    {acc : List (String × List String)} {k p : String}
    (h : accInv getAccountID acc) (hp : getAccountID p = .ok k) :
    accInv getAccountID (addToAccount acc k p) := by
  induction acc with
  | nil =>
    intro e he q hq
    simp only [addToAccount, List.mem_singleton] at he
    subst he
    simp only [List.mem_singleton] at hq
    subst hq
    simpa using hp
  | cons a rest ih =>
    intro e he q hq
    by_cases hak : a.1 = k
    · simp only [addToAccount, if_pos hak, List.mem_cons] at he
      rcases he with he | he
      · subst he
        simp only [List.mem_append, List.mem_singleton] at hq
        rcases hq with hq | hq
        · exact h a (by simp) q hq
        · subst hq; rw [hp, hak]
      · exact h e (by simp [he]) q hq
    · simp only [addToAccount, if_neg hak, List.mem_cons] at he
      rcases he with he | he
      · subst he; exact h e (by simp) q hq
      · exact ih (fun e2 he2 => h e2 (by simp [he2])) e he q hq

/-- One step of the grouping loop: skip on a failed lookup, record the
profile under its account otherwise. -/
def groupStep (getAccountID : String → Except String String)
    (acc : List (String × List String)) (p : String) : List (String × List String) :=
  match getAccountID p with
  | .error _ => acc
  | .ok accID => addToAccount acc accID p

theorem groupByAccount_eq_foldl (getAccountID : String → Except String String)
    (arrival : List String) :
    groupByAccount getAccountID arrival = arrival.foldl (groupStep getAccountID) [] := rfl

theorem foldl_group_inv (getAccountID : String → Except String String)
    (arrival : List String) :
    ∀ acc, accInv getAccountID acc → ((acc.map Prod.fst)).Nodup →
      accInv getAccountID (arrival.foldl (groupStep getAccountID) acc) ∧
      (((arrival.foldl (groupStep getAccountID) acc).map Prod.fst)).Nodup := by
  induction arrival with
  | nil => exact fun acc h1 h2 => ⟨h1, h2⟩
  | cons p rest ih =>
    intro acc h1 h2
    simp only [List.foldl_cons]
    cases hp : getAccountID p with
    | error e => simpa [groupStep, hp] using ih acc h1 h2
    | ok k =>
      have := ih (addToAccount acc k p) (accInv_add h1 hp) (addToAccount_keys_nodup h2 k p)
      simpa [groupStep, hp] using this

theorem mem_addToAccount_self (acc : List (String × List String)) (k p : String) :
    ∃ e ∈ addToAccount acc k p, e.1 = k ∧ p ∈ e.2 := by
  induction acc with
  | nil => exact ⟨(k, [p]), by simp [addToAccount]⟩
  | cons a rest ih =>
    by_cases h : a.1 = k
    · exact ⟨(a.1, a.2 ++ [p]), by simp [addToAccount, h]⟩
    · obtain ⟨e, he, hp⟩ := ih
      exact ⟨e, by simp [addToAccount, h, he], hp⟩

theorem mem_addToAccount_of_mem {acc : List (String × List String)} {e : String × List String}
    (he : e ∈ acc) (k p : String) :
    ∃ e2 ∈ addToAccount acc k p, e2.1 = e.1 ∧ ∀ q ∈ e.2, q ∈ e2.2 := by
  induction acc with
  | nil => simp at he
  | cons a rest ih =>
    rcases List.mem_cons.mp he with he1 | he1
    · subst he1
      by_cases h : e.1 = k
      · exact ⟨(e.1, e.2 ++ [p]), by simp [addToAccount, h], rfl, fun q hq => by simp [hq]⟩
      · exact ⟨e, by simp [addToAccount, h], rfl, fun q hq => hq⟩
    · by_cases h : a.1 = k
      · exact ⟨e, by simp [addToAccount, h, he1], rfl, fun q hq => hq⟩
      · obtain ⟨e2, he2, hfst, hsub⟩ := ih he1
        exact ⟨e2, by simp [addToAccount, h, he2], hfst, hsub⟩

theorem foldl_group_mem (getAccountID : String → Except String String) (rest : List String) :
    ∀ (acc : List (String × List String)) (e : String × List String), e ∈ acc →
      ∃ e2 ∈ rest.foldl (groupStep getAccountID) acc, e2.1 = e.1 ∧ ∀ q ∈ e.2, q ∈ e2.2 := by
  induction rest with
  | nil => exact fun acc e he => ⟨e, he, rfl, fun q hq => hq⟩
  | cons p tail ih =>
    intro acc e he
    simp only [List.foldl_cons]
    cases hp : getAccountID p with
    | error msg =>
      have := ih acc e he
      simpa [groupStep, hp] using this
    | ok k =>
      obtain ⟨e2, he2, hfst, hsub⟩ := mem_addToAccount_of_mem he k p
      obtain ⟨e3, he3, hfst3, hsub3⟩ := ih (addToAccount acc k p) e2 he2
      refine ⟨e3, by simpa [groupStep, hp] using he3, hfst3.trans hfst, fun q hq => hsub3 q (hsub q hq)⟩

theorem groupByAccount_complete (getAccountID : String → Except String String)
    (arrival : List String) {p a : String}
    (hp : p ∈ arrival) (ha : getAccountID p = .ok a) :
    ∃ e ∈ groupByAccount getAccountID arrival, e.1 = a ∧ p ∈ e.2 := by
  rw [groupByAccount_eq_foldl]
  suffices h : ∀ (l : List String) (acc : List (String × List String)), p ∈ l →
      ∃ e ∈ l.foldl (groupStep getAccountID) acc, e.1 = a ∧ p ∈ e.2 from h arrival [] hp
  intro l
  induction l with
  | nil => intro acc h; simp at h
  | cons x tail ih =>
    intro acc hmem
    simp only [List.foldl_cons]
    rcases List.mem_cons.mp hmem with hx | hx
    · subst hx
      obtain ⟨e, he, hfst, hin⟩ := mem_addToAccount_self acc a p
      obtain ⟨e2, he2, hfst2, hsub2⟩ := foldl_group_mem getAccountID tail (addToAccount acc a p) e he
      exact ⟨e2, by simpa [groupStep, ha] using he2, hfst2.trans hfst, hsub2 p hin⟩
    · exact ih _ hx

theorem perm_pair_eq {α : Type} {a b : α} {l : List α} (h : l.Perm [a, b]) :
    l = [a, b] ∨ l = [b, a] := by
  have hlen : l.length = 2 := by simpa using h.length_eq
  cases l with
  | nil => simp at hlen
  | cons x t =>
    cases t with
    | nil => simp at hlen
    | cons y t2 =>
      cases t2 with
      | nil =>
        have hx : x ∈ [a, b] := h.subset (by simp)
        simp only [List.mem_cons, List.mem_singleton, List.not_mem_nil, or_false] at hx
        rcases hx with hx | hx
        · subst hx
          have h2 := h.cons_inv
          left
          rw [List.perm_singleton.mp h2]
        · subst hx
          have hswap : List.Perm [x, y] [x, a] := h.trans (List.Perm.swap x a [])
          have h2 := hswap.cons_inv
          right
          rw [List.perm_singleton.mp h2]
      | cons z t3 => simp at hlen

/-! ## Concrete fixtures for the witness theorems -/

def wCost : CostData :=
  { accountID := "111", currentMonthCost := 150, lastMonthCost := 100,
    currentMonthCostByService := [], budgets := [],
    currentPeriodName := "cur", previousPeriodName := "prev" }

/-- A small data source: cost data fails for profile `bad`, the NAT,
idle-load-balancer, untagged and budget checks fail, everything else
succeeds. -/
def wRepo : AWSRepo :=
  { getAWSProfiles := ["p1", "p2"],
    getAccountID := fun _ => .ok "111",
    getCostData := fun p _ _ _ => if p = "bad" then .error "boom" else .ok wCost,
    getAccessibleRegions := fun _ => .ok ["us-east-1"],
    getEC2Summary := fun p _ =>
      .ok (if p = "p1" then [("running", 1)] else [("running", 2), ("stopped", 1)]),
    getNatGatewayCost := fun _ _ _ => .error "nat down",
    getIdleLoadBalancers := fun _ _ => .error "lb down",
    getStoppedInstances := fun _ _ => .ok [("us-east-1", ["i-1"])],
    getUnusedVolumes := fun _ _ => .ok [],
    getUnusedEIPs := fun _ _ => .ok [],
    getUntaggedResources := fun _ _ => .error "untag down",
    getUnusedVpcEndpoints := fun _ _ => .ok [],
    getBudgets := fun _ => .error "budget down" }

def wArgs : CLIArgs :=
  { profiles := ["p1", "p2"], regions := [], all := false, combine := true,
    timeRange := none, tag := [], breakdownCosts := false }

def wG1 : ProfileGroup :=
  { identifier := "p1", accountID := "", profiles := ["p1"], isCombined := false }

def wG2 : ProfileGroup :=
  { identifier := "p2", accountID := "", profiles := ["p2"], isCombined := false }

def wCombined : ProfileGroup :=
  { identifier := "p1, p2", accountID := "111", profiles := ["p1", "p2"], isCombined := true }

def exA : ProfileData := { ProfileData.zero with profile := "profileA" }

def exB : ProfileData := { ProfileData.zero with profile := "profileB" }

def exC : ProfileData := { ProfileData.zero with profile := "profileC" }

/-! ## Claim theorems -/

/-- C1: for every batch, the orchestration engine returns exactly one
JobResult per work unit, whatever the completion order and however many
units fail: the collected results are exactly the per-unit pipeline
outputs, and each unit's own result is present. -/
theorem one_result_per_unit (repo : AWSRepo) (args : CLIArgs)
    (groups arrival : List ProfileGroup) (h : arrival.Perm groups) :
    (generateDashboardData repo args arrival).length = groups.length ∧
    (generateDashboardData repo args arrival).Perm
      (groups.map (processProfileJob repo args)) ∧
    ∀ g ∈ groups, processProfileJob repo args g ∈ generateDashboardData repo args arrival := by
  refine ⟨?_, h.map _, ?_⟩
  · simp [generateDashboardData, h.length_eq]
  · intro g hg
    exact List.mem_map_of_mem _ (h.mem_iff.mpr hg)

/-- Witness for C1: a two-unit batch whose results arrive out of order
still yields exactly two results. -/
theorem one_result_per_unit_witness :
    (generateDashboardData wRepo wArgs [wG2, wG1]).length =
      ([wG1, wG2] : List ProfileGroup).length :=
  (one_result_per_unit wRepo wArgs [wG1, wG2] [wG2, wG1] (List.Perm.swap wG1 wG2 [])).1

/-- C2: the worker count written in the source is the constant 10 for
every batch size: the guard `numJobs < numJobs` is always false, so the
intended reduction to `min 10 numJobs` (claimed pool size) never happens —
at 3 submitted units the code spawns 10 workers, not 3. -/
theorem numWorkers_always_ten :
    (∀ numJobs : Nat, numWorkersGo numJobs = 10) ∧
    numWorkersGo 3 = 10 ∧ min 10 3 = 3 ∧ numWorkersGo 3 ≠ min 10 3 := by
  refine ⟨fun n => by simp [numWorkersGo], by simp [numWorkersGo], rfl, by simp [numWorkersGo]⟩

/-- C4: the percent-change computation matches the claimed three cases,
including the three concrete examples. -/
theorem percentChange_spec :
    (∀ current previous : Money, 0.01 < previous →
      calculatePercentageChange current previous =
        some (((current - previous) / previous) * 100)) ∧
    (∀ current previous : Money, previous < 0.01 → current < 0.01 →
      calculatePercentageChange current previous = some 0) ∧
    (∀ current previous : Money, previous < 0.01 → 0.01 ≤ current →
      calculatePercentageChange current previous = none) ∧
    calculatePercentageChange 150 100 = some 50 ∧
    calculatePercentageChange 0 0 = some 0 ∧
    calculatePercentageChange 50 0 = none := by
  refine ⟨?_, ?_, ?_, ?_, ?_, ?_⟩
  · intro c p h
    rw [calculatePercentageChange, if_pos h]
  · intro c p h1 h2
    rw [calculatePercentageChange, if_neg (not_lt.mpr h1.le), if_pos h2]
  · intro c p h1 h2
    rw [calculatePercentageChange, if_neg (not_lt.mpr h1.le), if_neg (not_lt.mpr h2)]
  · norm_num [calculatePercentageChange]
  · norm_num [calculatePercentageChange]
  · norm_num [calculatePercentageChange]

/-- Witness for C4: the first case applied at previous=100, current=150. -/
theorem percentChange_spec_witness :
    (0.01 : Money) < 100 ∧
    calculatePercentageChange 150 100 = some (((150 - 100) / 100) * 100) :=
  ⟨by norm_num, percentChange_spec.1 150 100 (by norm_num)⟩

/-- C5: the aggregator sorts any arrival order of JobResults ascending by
unit identifier before rendering/export — for the dashboard and audit
pipelines alike — and the arrival order profileC, profileA, profileB is
emitted as profileA, profileB, profileC. -/
theorem aggregator_sorts_results :
    (∀ results : List ProfileData,
      (sortDashboardResults results).Sorted profileLe ∧
      (sortDashboardResults results).Perm results) ∧
    (∀ (repo : AWSRepo) (args : CLIArgs) (arrival : List ProfileGroup),
      (runCostDashboardResults repo args arrival).Sorted profileLe ∧
      (runCostDashboardResults repo args arrival).Perm
        (generateDashboardData repo args arrival)) ∧
    (∀ (repo : AWSRepo) (args : CLIArgs) (arrival : List ProfileGroup),
      (runAuditReportData repo args arrival).Sorted auditLe) ∧
    (sortDashboardResults [exC, exA, exB]).map ProfileData.profile =
      ["profileA", "profileB", "profileC"] := by
  refine ⟨?_, ?_, ?_, ?_⟩
  · intro results
    exact ⟨List.sorted_insertionSort profileLe results,
      List.perm_insertionSort profileLe results⟩
  · intro repo args arrival
    exact ⟨List.sorted_insertionSort profileLe _, List.perm_insertionSort profileLe _⟩
  · intro repo args arrival
    exact List.sorted_insertionSort auditLe _
  · rfl

/-- C3: for a combined unit whose cost fetch succeeds, the compute-state
summary is the element-wise sum of the members' individually fetched
summaries (a member whose fetch failed contributes the zero summary), for
every merge-arrival order; the cost figures are those fetched for the
first member profile alone, not a sum. -/
theorem combined_unit_state_sum (repo : AWSRepo) (group : ProfileGroup)
    (userRegions : List String) (timeRange : Option Int) (tags : List String)
    (breakdown : Bool) (memberArrival : List String) (costData : CostData)
    (hperm : memberArrival.Perm group.profiles)
    (hcost : repo.getCostData (group.profiles.headD "") timeRange tags breakdown =
      .ok costData)
    (hnodup : ∀ p s, repo.getEC2Summary p
        (resolveRegions repo userRegions (group.profiles.headD "")) = .ok s →
        (s.map Prod.fst).Nodup) :
    (∀ state,
      ec2Get (processCombinedProfile repo group userRegions timeRange tags breakdown
          memberArrival).ec2Summary state =
        (group.profiles.map (fun p =>
          ec2Get (orZero (repo.getEC2Summary p
            (resolveRegions repo userRegions (group.profiles.headD ""))) []) state)).sum) ∧
    (processCombinedProfile repo group userRegions timeRange tags breakdown
        memberArrival).lastMonth = costData.lastMonthCost ∧
    (processCombinedProfile repo group userRegions timeRange tags breakdown
        memberArrival).currentMonth = costData.currentMonthCost ∧
    (processCombinedProfile repo group userRegions timeRange tags breakdown
        memberArrival).serviceCosts = costData.currentMonthCostByService ∧
    (processCombinedProfile repo group userRegions timeRange tags breakdown
        memberArrival).budgetInfo = formatBudgetInfo costData.budgets ∧
    (processCombinedProfile repo group userRegions timeRange tags breakdown
        memberArrival).accountID = costData.accountID ∧
    (processCombinedProfile repo group userRegions timeRange tags breakdown
        memberArrival).success = true := by
  have hunit : processCombinedProfile repo group userRegions timeRange tags breakdown
      memberArrival =
    populateProfileData
      { ProfileData.zero with
        profile := group.identifier, accountID := group.accountID, success := false }
      costData
      (memberArrival.foldl (fun acc p =>
        match repo.getEC2Summary p
            (resolveRegions repo userRegions (group.profiles.headD "")) with
        | .error _ => acc
        | .ok summary => ec2Merge acc summary) []) := by
    rw [processCombinedProfile, hcost]
  refine ⟨?_, ?_, ?_, ?_, ?_, ?_, ?_⟩ <;> rw [hunit]
  · intro state
    have hmerge := foldl_merge_get repo
      (resolveRegions repo userRegions (group.profiles.headD "")) memberArrival [] state
    have hsum : (memberArrival.map (fun p =>
        sumVals (orZero (repo.getEC2Summary p
          (resolveRegions repo userRegions (group.profiles.headD ""))) []) state)).sum =
      (memberArrival.map (fun p =>
        ec2Get (orZero (repo.getEC2Summary p
          (resolveRegions repo userRegions (group.profiles.headD ""))) []) state)).sum := by
      refine congrArg List.sum (List.map_congr_left ?_)
      intro p hp
      cases hs : repo.getEC2Summary p
          (resolveRegions repo userRegions (group.profiles.headD "")) with
      | error e => simp [orZero, sumVals, ec2Get]
      | ok s => simp only [orZero]; exact sumVals_eq_get (hnodup p s hs) state
    have hperm2 := (hperm.map (fun p =>
      ec2Get (orZero (repo.getEC2Summary p
        (resolveRegions repo userRegions (group.profiles.headD ""))) []) state)).sum_eq
    calc ec2Get (populateProfileData _ costData _).ec2Summary state
        = ec2Get (memberArrival.foldl (fun acc p =>
            match repo.getEC2Summary p
                (resolveRegions repo userRegions (group.profiles.headD "")) with
            | .error _ => acc
            | .ok summary => ec2Merge acc summary) []) state := by
          simp [populateProfileData]
      _ = _ := by rw [hmerge, hsum] at *; simpa [ec2Get] using hperm2
  · simp [populateProfileData]
  · simp [populateProfileData]
  · simp [populateProfileData]
  · simp [populateProfileData]
  · simp [populateProfileData]
  · simp [populateProfileData]

/-- Witness for C3: the combined unit of `p1` and `p2`, with the member
summaries arriving in reverse order. -/
theorem combined_unit_state_sum_witness :
    ec2Get (processCombinedProfile wRepo wCombined [] none [] false
        ["p2", "p1"]).ec2Summary "running" =
      (wCombined.profiles.map (fun p =>
        ec2Get (orZero (wRepo.getEC2Summary p
          (resolveRegions wRepo [] (wCombined.profiles.headD ""))) []) "running")).sum :=
  (combined_unit_state_sum wRepo wCombined [] none [] false ["p2", "p1"] wCost
    (List.Perm.swap "p1" "p2" []) rfl
    (fun p s h => by
      cases h
      by_cases hp : p = "p1" <;> simp [hp])).1 "running"

/-- C7: when the critical cost query of the dashboard pipeline fails, the
unit's JobResult is exactly the zero record with only the profile name and
the wrapped failure reason set (so `success` is false and every
pipeline-specific field is zero-valued), and the result does not depend on
the region-discovery or EC2 sub-queries — they are never consulted. -/
theorem critical_cost_failure_zeroes_unit (repo : AWSRepo) (profile : String)
    (userRegions : List String) (timeRange : Option Int) (tags : List String)
    (breakdown : Bool) (e : String)
    (h : repo.getCostData profile timeRange tags breakdown = .error e) :
    processSingleProfile repo profile userRegions timeRange tags breakdown =
      { ProfileData.zero with
        profile := profile,
        err := some ("failed to get cost data: " ++ e) } ∧
    ∀ (f : String → List String → Except String EC2Summary)
      (g : String → Except String (List String)),
      processSingleProfile
          { repo with getEC2Summary := f, getAccessibleRegions := g }
          profile userRegions timeRange tags breakdown =
        processSingleProfile repo profile userRegions timeRange tags breakdown := by
  constructor
  · rw [processSingleProfile, h]
    rfl
  · intro f g
    have h2 : ({ repo with getEC2Summary := f, getAccessibleRegions := g } :
        AWSRepo).getCostData profile timeRange tags breakdown = .error e := h
    rw [processSingleProfile, h2, processSingleProfile, h]

/-- Witness for C7: profile `bad`, whose cost fetch fails with `boom`. -/
theorem critical_cost_failure_zeroes_unit_witness :
    processSingleProfile wRepo "bad" [] none [] false =
      { ProfileData.zero with
        profile := "bad",
        err := some ("failed to get cost data: " ++ "boom") } :=
  (critical_cost_failure_zeroes_unit wRepo "bad" [] none [] false "boom" rfl).1

theorem formatAuditMap_nil (t : String) : formatAuditMap [] t = "None" := rfl

theorem formatAuditMapForUntagged_nil : formatAuditMapForUntagged [] = "None" := rfl

theorem formatNatGatewayCosts_nil : formatNatGatewayCosts [] = "None" := rfl

theorem formatBudgetAlerts_nil : formatBudgetAlerts [] = "No budgets exceeded" := rfl

/-- C8: the audit pipeline issues its 8 checks independently — the unit's
row is exactly the record of the 8 individually formatted check results,
so each field depends only on its own check — a unit's row is produced for
every unit of the batch regardless of check failures (an AuditData row has
no failed state at all), and the failure of any single check degrades
exactly its own field to the empty representation. -/
theorem audit_checks_independent (repo : AWSRepo) (args : CLIArgs)
    (groups arrival : List ProfileGroup) (group : ProfileGroup) (e : String) :
    (arrival.Perm groups →
      (runAuditReportData repo args arrival).length = groups.length) ∧
    auditUnit repo args group =
      { profile := group.profiles.headD "",
        accountID := orZero (repo.getAccountID (group.profiles.headD "")) "",
        natGatewayCosts := formatNatGatewayCosts (orZero
          (repo.getNatGatewayCost (group.profiles.headD "")
            (effTimeRange args.timeRange) args.tag) []),
        idleLoadBalancers := formatAuditMap (orZero
          (repo.getIdleLoadBalancers (group.profiles.headD "")
            (resolveRegions repo args.regions (group.profiles.headD ""))) [])
          "Idle Load Balancers",
        stoppedInstances := formatAuditMap (orZero
          (repo.getStoppedInstances (group.profiles.headD "")
            (resolveRegions repo args.regions (group.profiles.headD ""))) [])
          "Stopped Instances",
        unusedVolumes := formatAuditMap (orZero
          (repo.getUnusedVolumes (group.profiles.headD "")
            (resolveRegions repo args.regions (group.profiles.headD ""))) [])
          "Unused Volumes",
        unusedEIPs := formatAuditMap (orZero
          (repo.getUnusedEIPs (group.profiles.headD "")
            (resolveRegions repo args.regions (group.profiles.headD ""))) [])
          "Unused Elastic IPs",
        untaggedResources := formatAuditMapForUntagged (orZero
          (repo.getUntaggedResources (group.profiles.headD "")
            (resolveRegions repo args.regions (group.profiles.headD ""))) []),
        unusedVpcEndpoints := formatAuditMap (orZero
          (repo.getUnusedVpcEndpoints (group.profiles.headD "")
            (resolveRegions repo args.regions (group.profiles.headD ""))) [])
          "Unused VPC Endpoints",
        budgetAlerts := formatBudgetAlerts (orZero
          (repo.getBudgets (group.profiles.headD "")) []) } ∧
    (repo.getNatGatewayCost (group.profiles.headD "") (effTimeRange args.timeRange)
        args.tag = .error e →
      (auditUnit repo args group).natGatewayCosts = "None") ∧
    (repo.getIdleLoadBalancers (group.profiles.headD "")
        (resolveRegions repo args.regions (group.profiles.headD "")) = .error e →
      (auditUnit repo args group).idleLoadBalancers = "None") ∧
    (repo.getStoppedInstances (group.profiles.headD "")
        (resolveRegions repo args.regions (group.profiles.headD "")) = .error e →
      (auditUnit repo args group).stoppedInstances = "None") ∧
    (repo.getUnusedVolumes (group.profiles.headD "")
        (resolveRegions repo args.regions (group.profiles.headD "")) = .error e →
      (auditUnit repo args group).unusedVolumes = "None") ∧
    (repo.getUnusedEIPs (group.profiles.headD "")
        (resolveRegions repo args.regions (group.profiles.headD "")) = .error e →
      (auditUnit repo args group).unusedEIPs = "None") ∧
    (repo.getUntaggedResources (group.profiles.headD "")
        (resolveRegions repo args.regions (group.profiles.headD "")) = .error e →
      (auditUnit repo args group).untaggedResources = "None") ∧
    (repo.getUnusedVpcEndpoints (group.profiles.headD "")
        (resolveRegions repo args.regions (group.profiles.headD "")) = .error e →
      (auditUnit repo args group).unusedVpcEndpoints = "None") ∧
    (repo.getBudgets (group.profiles.headD "") = .error e →
      (auditUnit repo args group).budgetAlerts = "No budgets exceeded") := by
  refine ⟨?_, rfl, ?_, ?_, ?_, ?_, ?_, ?_, ?_, ?_⟩
  · intro h
    unfold runAuditReportData
    rw [(List.perm_insertionSort auditLe _).length_eq, List.length_map, h.length_eq]
  · intro h; simp only [auditUnit, h, orZero]; rfl
  · intro h; simp only [auditUnit, h, orZero]; rfl
  · intro h; simp only [auditUnit, h, orZero]; rfl
  · intro h; simp only [auditUnit, h, orZero]; rfl
  · intro h; simp only [auditUnit, h, orZero]; rfl
  · intro h; simp only [auditUnit, h, orZero]; rfl
  · intro h; simp only [auditUnit, h, orZero]; rfl
  · intro h; simp only [auditUnit, h, orZero]; rfl

/-- Witness for C8: a two-unit batch arriving out of order still yields
two rows, and the failing NAT, idle-load-balancer, untagged and budget
checks degrade exactly their own fields. -/
theorem audit_checks_independent_witness :
    (runAuditReportData wRepo wArgs [wG2, wG1]).length =
      ([wG1, wG2] : List ProfileGroup).length ∧
    (auditUnit wRepo wArgs wG1).natGatewayCosts = "None" ∧
    (auditUnit wRepo wArgs wG1).idleLoadBalancers = "None" ∧
    (auditUnit wRepo wArgs wG1).untaggedResources = "None" ∧
    (auditUnit wRepo wArgs wG1).budgetAlerts = "No budgets exceeded" :=
  ⟨(audit_checks_independent wRepo wArgs [wG1, wG2] [wG2, wG1] wG1 "x").1
      (List.Perm.swap wG1 wG2 []),
   (audit_checks_independent wRepo wArgs [wG1, wG2] [wG2, wG1] wG1 "nat down").2.2.1 rfl,
   (audit_checks_independent wRepo wArgs [wG1, wG2] [wG2, wG1] wG1 "lb down").2.2.2.1 rfl,
   (audit_checks_independent wRepo wArgs [wG1, wG2] [wG2, wG1] wG1
      "untag down").2.2.2.2.2.2.2.1 rfl,
   (audit_checks_independent wRepo wArgs [wG1, wG2] [wG2, wG1] wG1
      "budget down").2.2.2.2.2.2.2.2.2 rfl⟩

/-- C6: under combine-by-account, all identity lookups run in parallel
(every completion order `arrival` gives groups with the stated shape),
profiles with failed lookups are dropped, exactly one combined unit exists
per account ID, every successfully resolved profile lands in its account's
unit with the member list sorted — and the concrete scenario: `p1` and
`p2` both resolving to account `111` yield the single unit
`{identifier "p1, p2", accountID "111", profiles [p1, p2], combined}`,
whatever the lookup completion order. -/
theorem combine_resolver_spec :
    (∀ (getAccountID : String → Except String String) (arrival : List String),
      (∀ g ∈ combineGroups arrival getAccountID,
        g.isCombined = true ∧ g.profiles.Sorted strLeR) ∧
      (∀ p e, getAccountID p = .error e →
        ∀ g ∈ combineGroups arrival getAccountID, p ∉ g.profiles) ∧
      ((combineGroups arrival getAccountID).map ProfileGroup.accountID).Nodup ∧
      (∀ p ∈ arrival, ∀ a, getAccountID p = .ok a →
        ∃ g ∈ combineGroups arrival getAccountID, g.accountID = a ∧ p ∈ g.profiles)) ∧
    (∀ arrival : List String, arrival.Perm ["p1", "p2"] →
      initializeProfiles wRepo wArgs arrival = .ok [wCombined]) := by
  constructor
  · intro getAccountID arrival
    have hinv := foldl_group_inv getAccountID arrival []
      (fun e he => absurd he (List.not_mem_nil e)) (by simp)
    rw [← groupByAccount_eq_foldl] at hinv
    refine ⟨?_, ?_, ?_, ?_⟩
    · intro g hg
      obtain ⟨ent, hent, rfl⟩ := List.mem_map.mp hg
      exact ⟨rfl, sortStrings_sorted ent.2⟩
    · intro p e hp g hg hmem
      obtain ⟨ent, hent, rfl⟩ := List.mem_map.mp hg
      have hp2 : p ∈ ent.2 := (sortStrings_perm ent.2).mem_iff.mp hmem
      have := hinv.1 ent hent p hp2
      rw [hp] at this
      exact Except.noConfusion this
    · have hmapeq : (combineGroups arrival getAccountID).map ProfileGroup.accountID =
          (groupByAccount getAccountID arrival).map Prod.fst := by
        rw [combineGroups, List.map_map]
        rfl
      rw [hmapeq]
      exact hinv.2
    · intro p hp a ha
      obtain ⟨ent, hent, hfst, hin⟩ := groupByAccount_complete getAccountID arrival hp ha
      refine ⟨_, List.mem_map_of_mem _ hent, hfst, ?_⟩
      exact (sortStrings_perm ent.2).mem_iff.mpr hin
  · intro arrival hperm
    rcases perm_pair_eq hperm with h | h <;> subst h <;> rfl

/-- Witness for C6: the reversed completion order of the two lookups. -/
theorem combine_resolver_spec_witness :
    initializeProfiles wRepo wArgs ["p2", "p1"] = .ok [wCombined] :=
  combine_resolver_spec.2 ["p2", "p1"] (List.Perm.swap "p1" "p2" [])

theorem foldl_no_match (avail : List String) (l : List String)
    (h : ∀ p ∈ l, p ∉ avail) (acc : List String) :
    l.foldl (fun acc p => if avail.contains p then acc ++ [p] else acc) acc = acc := by
  induction l generalizing acc with
  | nil => rfl
  | cons x rest ih =>
    have hx : avail.contains x = false := by
      have := h x (List.mem_cons_self x rest)
      simpa using this
    simp only [List.foldl_cons, hx, Bool.false_eq_true, if_false]
    exact ih (fun p hp => h p (List.mem_cons_of_mem x hp)) acc

theorem selectProfiles_nil (args : CLIArgs) : selectProfiles [] args = [] := by
  unfold selectProfiles
  by_cases hall : args.all
  · simp [hall]
  · by_cases hp : args.profiles.length > 0
    · simp only [hall, Bool.false_eq_true, if_false, if_pos hp]
      exact foldl_no_match [] args.profiles (by simp) []
    · simp [hall, hp]

theorem selectProfiles_unmatched {avail : List String} {args : CLIArgs}
    (hall : args.all = false) (hne : args.profiles ≠ [])
    (h : ∀ p ∈ args.profiles, p ∉ avail) : selectProfiles avail args = [] := by
  unfold selectProfiles
  rw [hall]
  simp only [Bool.false_eq_true, if_false]
  rw [if_pos (List.length_pos.mpr hne)]
  exact foldl_no_match avail args.profiles h []

/-- C9 counterexample: with no available profiles at all, the resolver
fails with `ErrNoValidProfilesFound` — not with the distinct
`ErrNoProfilesFound` the claim assigns to this condition. -/
theorem resolver_counterexample :
    initializeProfiles { wRepo with getAWSProfiles := [] } wArgs [] =
      .error ErrNoValidProfilesFound ∧
    ErrNoValidProfilesFound ≠ ErrNoProfilesFound := by
  exact ⟨rfl, by decide⟩

/-- C9 amended: the resolver fails with the single error
`ErrNoValidProfilesFound` in both conditions — when the provider reports
no available profiles at all, and when profiles were requested (without
the use-all flag) and every requested name failed to match. -/
theorem resolver_single_error (repo : AWSRepo) (args : CLIArgs) (arrival : List String) :
    (repo.getAWSProfiles = [] →
      initializeProfiles repo args arrival = .error ErrNoValidProfilesFound) ∧
    (args.all = false → args.profiles ≠ [] →
      (∀ p ∈ args.profiles, p ∉ repo.getAWSProfiles) →
      initializeProfiles repo args arrival = .error ErrNoValidProfilesFound) := by
  constructor
  · intro h
    rw [initializeProfiles]
    simp [h, selectProfiles_nil]
  · intro hall hne h
    rw [initializeProfiles]
    simp [selectProfiles_unmatched hall hne h]

/-- Witness for C9: requested profile `zz` matches none of the available
profiles `p1`, `p2`. -/
theorem resolver_single_error_witness :
    initializeProfiles wRepo { wArgs with profiles := ["zz"] } [] =
      .error ErrNoValidProfilesFound :=
  (resolver_single_error wRepo { wArgs with profiles := ["zz"] } []).2 rfl
    (by decide) (by decide)

/-- The regions `formatAuditMap` actually emits: the map's keys in sorted
order with empty-valued regions skipped. -/
def emittedRegions (m : RegionMap) : List String :=
  (sortStrings (m.map Prod.fst)).filter (fun r => !decide ((regionGet m r).length = 0))

/-- The declarative shape of one region's block: a header, the sorted
identifiers capped at `maxItemsPerRegion`, and — exactly when items were
omitted — one `... (+K more)` line with K the number of omitted items. -/
def auditRegionBlock (region : String) (items : List String) : String :=
  fgCyan (region ++ ":" ++ "\n") ++
  strConcat (((sortStrings items).take maxItemsPerRegion).map
    (fun item => "  - " ++ item ++ "\n")) ++
  (if maxItemsPerRegion < items.length then
    "  ... (+" ++ toString (items.length - maxItemsPerRegion) ++ " more)" ++ "\n"
  else "")

theorem str_empty_append (s : String) : "" ++ s = s := rfl

theorem str_append_empty (s : String) : s ++ "" = s := by
  cases s
  show String.mk _ = String.mk _
  simp

/-- One region's step equals the declarative block (or a skip). -/
theorem auditMapStep_eq (data : RegionMap) (b region : String) :
    auditMapStep data b region =
      if (regionGet data region).length = 0 then b
      else b ++ auditRegionBlock region (regionGet data region) := by
  by_cases h0 : (regionGet data region).length = 0
  · simp [auditMapStep, h0]
  · have hlen : (sortStrings (regionGet data region)).length = (regionGet data region).length :=
      (sortStrings_perm (regionGet data region)).length_eq
    rw [auditMapStep, if_neg h0, if_neg h0]
    dsimp only
    by_cases hgt : (sortStrings (regionGet data region)).length > maxItemsPerRegion
    · rw [if_pos hgt, if_pos hgt, foldl_append_concat]
      rw [auditRegionBlock, if_pos (by omega : maxItemsPerRegion < (regionGet data region).length)]
      simp [String.append_assoc, hlen]
    · rw [if_neg hgt, List.take_length, if_neg (lt_irrefl _), foldl_append_concat]
      rw [auditRegionBlock,
        if_neg (by omega : ¬maxItemsPerRegion < (regionGet data region).length),
        List.take_of_length_le (not_lt.mp hgt)]
      simp [String.append_assoc, str_append_empty]

theorem auditMapStep_foldl (data : RegionMap) (l : List String) (b : String) :
    l.foldl (auditMapStep data) b =
      b ++ strConcat ((l.filter (fun r => !decide ((regionGet data r).length = 0))).map
        (fun r => auditRegionBlock r (regionGet data r))) := by
  induction l generalizing b with
  | nil => simp [strConcat, str_append_empty]
  | cons x rest ih =>
    simp only [List.foldl_cons, List.filter_cons]
    by_cases h0 : (regionGet data x).length = 0
    · rw [auditMapStep_eq, if_pos h0]
      simpa [h0] using ih b
    · rw [auditMapStep_eq, if_neg h0]
      rw [ih]
      simp [h0, strConcat, String.append_assoc]

theorem formatAuditMap_blocks (m : RegionMap) (t : String) (hne : m ≠ []) :
    formatAuditMap m t =
      strConcat ((emittedRegions m).map (fun r => auditRegionBlock r (regionGet m r))) := by
  rw [formatAuditMap, if_neg (fun h => hne (List.length_eq_zero.mp h))]
  rw [auditMapStep_foldl, str_empty_append]
  rfl

/-- C10: a non-empty region map renders as the concatenation, in
lexicographic region order with empty-valued regions skipped, of one
block per region: its header, its identifiers sorted and truncated to at
most `maxItemsPerRegion` (50) printed items, and — exactly when items
were omitted — a `... (+K more)` line with K the omitted count (see
`auditRegionBlock`); a wholly empty map renders as `None` (for the
untagged variant too). -/
theorem formatAuditMap_spec (m : RegionMap) (t : String) (items : List String) :
    formatAuditMap [] t = "None" ∧
    (m ≠ [] → formatAuditMap m t =
      strConcat ((emittedRegions m).map (fun r => auditRegionBlock r (regionGet m r)))) ∧
    (emittedRegions m).Sorted strLeR ∧
    (∀ r, r ∈ emittedRegions m ↔ r ∈ sortStrings (m.map Prod.fst) ∧ regionGet m r ≠ []) ∧
    ((sortStrings items).take maxItemsPerRegion).Sorted strLeR ∧
    ((sortStrings items).take maxItemsPerRegion).length ≤ maxItemsPerRegion ∧
    (maxItemsPerRegion < items.length →
      items.length - ((sortStrings items).take maxItemsPerRegion).length =
        items.length - maxItemsPerRegion) ∧
    (items.length ≤ maxItemsPerRegion →
      (sortStrings items).take maxItemsPerRegion = sortStrings items) ∧
    formatAuditMapForUntagged [] = "None" := by
  refine ⟨rfl, formatAuditMap_blocks m t, ?_, ?_, ?_, ?_, ?_, ?_, rfl⟩
  · exact (sortStrings_sorted (m.map Prod.fst)).filter _
  · intro r
    simp [emittedRegions, List.mem_filter, List.length_eq_zero]
  · exact (sortStrings_sorted items).sublist (List.take_sublist _ _)
  · rw [List.length_take]
    exact min_le_left _ _
  · intro h
    rw [List.length_take, (sortStrings_perm items).length_eq, min_eq_left h.le]
  · intro h
    exact List.take_of_length_le (by rw [(sortStrings_perm items).length_eq]; exact h)

/-- Witness for C10: a one-region map with two identifiers satisfies the
block decomposition and the no-truncation case. -/
theorem formatAuditMap_spec_witness :
    formatAuditMap [("us-east-1", ["b", "a"])] "T" =
      strConcat ((emittedRegions [("us-east-1", ["b", "a"])]).map
        (fun r => auditRegionBlock r (regionGet [("us-east-1", ["b", "a"])] r))) ∧
    (sortStrings ["b", "a"]).take maxItemsPerRegion = sortStrings ["b", "a"] :=
  ⟨(formatAuditMap_spec [("us-east-1", ["b", "a"])] "T" ["b", "a"]).2.1 (by decide),
   (formatAuditMap_spec [("us-east-1", ["b", "a"])] "T"
      ["b", "a"]).2.2.2.2.2.2.2.1 (by decide)⟩

end AwsFinops
